import Mathlib

/-
Verification of the AnyLauncher catalog and launch logic
(src/anylauncher.py) against its design specification.

The catalog file games.json holds a JSON array of game objects.  We embed
the file content as a `List StoredGame`; every catalog-mutating operation
is a pure function from the stored list to the new stored list (wrapped in
`Option` when the operation has an error path on which the file is not
written, so `none` models "error surfaced, file untouched").
-/

namespace AnyLauncher

/-- A raw game record as stored in games.json.  Every field is optional
because legacy files may lack keys: `none` models an absent key (the code
reads each field with `game.get(key, default)`); for `md5` it also models
an explicit JSON null, which `game.get("md5", None)` does not distinguish
from an absent key. -/
structure StoredGame where
  id : Option String
  name : Option String
  path : Option String
  md5 : Option String
  is_last_selected : Option Bool
deriving DecidableEq, Repr

/-- A healed in-memory game record as produced by `Select.load_games`
(anylauncher.py lines 598-605): every field is present. -/
structure Game where
  id : String
  name : String
  path : String
  md5 : Option String
  is_last_selected : Bool
deriving DecidableEq, Repr

/-- Healing of one stored record, from the body of the loop in
`Select.load_games` (lines 599-605): each missing field is replaced by its
default; a missing id is replaced by the freshly generated uuid
`freshId`. -/
def healGame (freshId : String) (g : StoredGame) : Game :=
  { id := g.id.getD freshId
    name := g.name.getD "未知游戏"
    path := g.path.getD ""
    md5 := g.md5
    is_last_selected := g.is_last_selected.getD false }

/-- Healing of the whole stored list.  The uuid generator is modelled as a
supply `fresh : Nat → String`; the counter `k` advances exactly when a
fresh uuid is consumed, i.e. when a stored record has no id (the code
calls `uuid.uuid4()` lazily inside `game.get("id", ...)`). -/
def healGames (fresh : Nat → String) : Nat → List StoredGame → List Game
  | _, [] => []
  | k, g :: gs =>
    match g.id with
    | some _ => healGame (fresh k) g :: healGames fresh k gs
    | none => healGame (fresh k) g :: healGames fresh (k + 1) gs

/-- The reordering done by `Select.load_games` line 607:
`games.sort(key=lambda x: not x["is_last_selected"])`.  Python's list.sort
is stable, and a stable sort on a Bool key is exactly the stable
partition: records whose key is False (the selected ones) first, in their
original order, then the rest in their original order. -/
def sortSelectedFirst (gs : List Game) : List Game :=
  gs.filter (fun g => g.is_last_selected) ++ gs.filter (fun g => !g.is_last_selected)

/-- `Select.load_games` (lines 594-610): read the stored list, heal each
record, then move the selected record(s) to the front. -/
def load_games (fresh : Nat → String) (stored : List StoredGame) : List Game :=
  sortSelectedFirst (healGames fresh 0 stored)

/-- The record appended by `EditGameWindow.import_with_new_name`
(lines 256-264): a full record with the freshly generated uuid and
`is_last_selected` False. -/
def newGameRecord (freshId new_name game_path : String) (game_md5 : Option String) :
    StoredGame :=
  { id := some freshId
    name := some new_name
    path := some game_path
    md5 := game_md5
    is_last_selected := some false }

/-- Catalog transform of `EditGameWindow.import_with_new_name`
(lines 256-269): append the new record and write the file.  The
name-collision check (line 251-254) only asks the user for confirmation
and never blocks on its own; we model the confirmed path. -/
def import_with_new_name (freshId new_name game_path : String)
    (game_md5 : Option String) (games : List StoredGame) : List StoredGame :=
  games ++ [newGameRecord freshId new_name game_path game_md5]

/-- Catalog transform of `GameSettingsWindow.save_settings`
(lines 448-469): the first record whose id equals `game_id` gets its
name, path and md5 overwritten in place (the loop breaks after the first
match); `none` models the "未找到要修改的游戏" error path on which the
file is not written. -/
def save_settings (game_id new_name new_path : String) (new_md5 : Option String) :
    List StoredGame → Option (List StoredGame)
  | [] => none
  | g :: gs =>
    if g.id = some game_id then
      some ({ g with name := some new_name, path := some new_path, md5 := new_md5 } :: gs)
    else
      (save_settings game_id new_name new_path new_md5 gs).map (g :: ·)

/-- Catalog transform of `Select.delete_game` (lines 712-728): keep every
record whose id differs from the selected id; if nothing was removed the
code reports "未找到要删除的游戏" and does not write, modelled by
`none`. -/
def delete_game (game_id : String) (games : List StoredGame) :
    Option (List StoredGame) :=
  let remaining := games.filter (fun g => g.id ≠ some game_id)
  if remaining.length = games.length then none else some remaining

/-- Catalog transform of `Select.save_and_close` (lines 646-653): set
`is_last_selected` on every record to whether its id equals the selected
id, then write.  There is no not-found error path: an id matching no
record simply leaves every record deselected. -/
def save_and_close (selected_game_id : String) (games : List StoredGame) :
    List StoredGame :=
  games.map (fun g => { g with is_last_selected := some (decide (g.id = some selected_game_id)) })

/-- The list of ids present in a stored catalog (records without an id
contribute nothing). -/
def storedIds (games : List StoredGame) : List String :=
  games.filterMap (fun g => g.id)

/-- One catalog-mutating operation of the Catalog Service, as invoked by
the presentation layer. -/
inductive CatalogOp where
  | importOp (freshId new_name game_path : String) (game_md5 : Option String)
  | updateOp (game_id new_name new_path : String) (new_md5 : Option String)
  | deleteOp (game_id : String)
deriving DecidableEq, Repr

/-- Apply one operation to the stored catalog.  On the error paths of
update and delete the file is not written, so the catalog is unchanged. -/
def applyOp (games : List StoredGame) : CatalogOp → List StoredGame
  | .importOp f n p m => import_with_new_name f n p m games
  | .updateOp gid n p m => (save_settings gid n p m games).getD games
  | .deleteOp gid => (delete_game gid games).getD games

/-- Apply a sequence of operations, left to right. -/
def applyOps (games : List StoredGame) (ops : List CatalogOp) : List StoredGame :=
  ops.foldl applyOp games

/-- The fresh uuids an operation introduces into the catalog: only import
generates a new id. -/
def opFreshIds : CatalogOp → List String
  | .importOp f _ _ _ => [f]
  | .updateOp _ _ _ _ => []
  | .deleteOp _ => []

/-- All fresh uuids introduced by a sequence of operations. -/
def opsFreshIds : List CatalogOp → List String
  | [] => []
  | op :: ops => opFreshIds op ++ opsFreshIds ops

/-
The launch side.  `start_game` consults the file system, the MD5 of the
file's bytes and the outcome of the OS spawn; these environment effects
are modelled as explicit parameters.  Paths are modelled structurally: the
os.path library functions `dirname` and `splitext` (which are not code of
this repository) become the projections `dir` and `ext`; paths are taken
after the initial `os.path.abspath` normalisation.
-/

/-- An absolute file path, split as os.path splits it: the containing
directory (`os.path.dirname`), the base name without extension, and the
extension including its leading dot (`os.path.splitext(...)[1]`). -/
structure GamePath where
  dir : String
  stem : String
  ext : String
deriving DecidableEq, Repr

/-- What the file system holds at a path: no file (`os.path.exists` is
False), a file that exists but cannot be read (open/read raises), or a
readable file with the given byte content. -/
inductive FileStat where
  | absent
  | unreadable
  | file (content : List Nat)
deriving DecidableEq, Repr

/-- `get_file_md5` (lines 45-56): `none` when the file does not exist or
reading it fails, otherwise the digest of the full byte content.  The
chunked streaming of the source accumulates exactly the digest of the
whole content, so the digest function `md5Hex` is applied to the whole
content; `md5Hex` itself is the MD5 primitive of hashlib, an external
library, and is a parameter of the model. -/
def get_file_md5 (md5Hex : List Nat → String) (fs : GamePath → FileStat)
    (file_path : GamePath) : Option String :=
  match fs file_path with
  | .absent => none
  | .unreadable => none
  | .file c => some (md5Hex c)

/-- Python truthiness of the `Optional[str]` value `game_md5` as tested by
`if game_md5:` (line 95): None and the empty string are falsy. -/
def md5Truthy : Option String → Bool
  | none => false
  | some s => !s.isEmpty

/-- Python's str.lower applied to an extension (line 87:
`os.path.splitext(game_path)[1].lower()`), modelled character-wise; the
extensions compared here are ASCII, on which this agrees with str.lower. -/
def strLower (s : String) : String := ⟨s.data.map Char.toLower⟩

/-- Outcome of the OS attempting to spawn the file as a child process
(`subprocess.Popen`, lines 110-114): success, or one of the exception
kinds the source catches. -/
inductive SpawnResult where
  | ok
  | permissionError
  | fileNotFoundError
  | otherError
deriving DecidableEq, Repr

/-- A handle retained in the process registry `GAME_PROCESSES`: the
spawned path together with the working directory the child was given. -/
structure SpawnHandle where
  cmd : GamePath
  cwd : String
deriving DecidableEq, Repr

/-- Result of one `start_game` call: the integer code the function
returns (1 success, -1 launch failure, -2 file missing, -3 integrity
mismatch), the page opened via the system default handler if any
(`webbrowser.open_new_tab`), and the process registry after the call. -/
structure StartResult where
  code : Int
  opened : Option GamePath
  registry : List SpawnHandle
deriving DecidableEq, Repr

/-- The dispatch step of `start_game` (lines 101-125): an .html path
(extension lowered) is opened via the default browser and not tracked;
any other path is spawned with its working directory set to its containing
folder and the handle is appended to the registry; spawn exceptions give
code -1 with nothing opened and nothing tracked. -/
def dispatch_game (spawn : GamePath → SpawnResult) (procs : List SpawnHandle)
    (game_path : GamePath) : StartResult :=
  if strLower game_path.ext = ".html" then
    { code := 1, opened := some game_path, registry := procs }
  else
    match spawn game_path with
    | .ok => { code := 1, opened := none, registry := procs ++ [{ cmd := game_path, cwd := game_path.dir }] }
    | .permissionError => { code := -1, opened := none, registry := procs }
    | .fileNotFoundError => { code := -1, opened := none, registry := procs }
    | .otherError => { code := -1, opened := none, registry := procs }

/-- `start_game` (lines 80-125): missing file gives -2; when the stored
md5 is truthy and the recomputed digest differs the result is -3 and
nothing is launched; otherwise dispatch by file kind. -/
def start_game (md5Hex : List Nat → String) (fs : GamePath → FileStat)
    (spawn : GamePath → SpawnResult) (procs : List SpawnHandle)
    (game_path : GamePath) (game_md5 : Option String) : StartResult :=
  if fs game_path = FileStat.absent then
    { code := -2, opened := none, registry := procs }
  else
    if md5Truthy game_md5 then
      if get_file_md5 md5Hex fs game_path ≠ game_md5 then
        { code := -3, opened := none, registry := procs }
      else
        dispatch_game spawn procs game_path
    else
      dispatch_game spawn procs game_path

/-- The relation between a stored record and its healed form: a present
id is kept, each missing field among name, path, hash and selection flag
is replaced by its default (the display name default, the empty path, no
hash, not selected). -/
def Heals (s : StoredGame) (g : Game) : Prop :=
  (∀ i, s.id = some i → g.id = i) ∧
  g.name = s.name.getD "未知游戏" ∧
  g.path = s.path.getD "" ∧
  g.md5 = s.md5 ∧
  g.is_last_selected = s.is_last_selected.getD false

/-- Serialisation of a fully populated in-memory record back to the
stored form, as written by `json.dump` (lines 267-269): every one of the
five fields is written out. -/
def saveGame (g : Game) : StoredGame :=
  { id := some g.id
    name := some g.name
    path := some g.path
    md5 := g.md5
    is_last_selected := some g.is_last_selected }

/-- Serialisation of a whole catalog of fully populated records. -/
def saveGames (gs : List Game) : List StoredGame :=
  gs.map saveGame

/-
Helper lemmas about the stored ids, shared by several claims.
-/

theorem storedIds_import (f n p : String) (m : Option String) (gs : List StoredGame) :
    storedIds (import_with_new_name f n p m gs) = storedIds gs ++ [f] := by
  simp [import_with_new_name, storedIds, newGameRecord]

theorem save_settings_storedIds (gid n p : String) (m : Option String) :
    ∀ (gs gs' : List StoredGame), save_settings gid n p m gs = some gs' →
      storedIds gs' = storedIds gs := by
  intro gs
  induction gs with
  | nil => intro gs' h; simp [save_settings] at h
  | cons g gs ih =>
    intro gs' h
    obtain ⟨i0, n0, p0, m0, s0⟩ := g
    rw [save_settings] at h
    split_ifs at h with hid
    · injection h with h
      subst h
      simp [storedIds, List.filterMap_cons, hid]
    · cases hmap : save_settings gid n p m gs with
      | none => rw [hmap] at h; exact Option.noConfusion h
      | some gs'' =>
        rw [hmap] at h
        injection h with h
        subst h
        cases i0 with
        | none => simpa [storedIds, List.filterMap_cons] using ih gs'' hmap
        | some i => simpa [storedIds, List.filterMap_cons] using ih gs'' hmap

theorem delete_game_eq_filter (gid : String) (gs gs' : List StoredGame)
    (h : delete_game gid gs = some gs') :
    gs' = gs.filter (fun g => g.id ≠ some gid) := by
  simp only [delete_game] at h
  split_ifs at h with hlen
  injection h with h
  exact h.symm

theorem storedIds_applyOp_sublist (gs : List StoredGame) (op : CatalogOp) :
    List.Sublist (storedIds (applyOp gs op)) (storedIds gs ++ opFreshIds op) := by
  cases op with
  | importOp f n p m =>
    rw [applyOp, storedIds_import]
    exact List.Sublist.refl _
  | updateOp gid n p m =>
    cases h : save_settings gid n p m gs with
    | none => simp [applyOp, h, opFreshIds]
    | some gs' =>
      simp [applyOp, h, opFreshIds, save_settings_storedIds gid n p m gs gs' h]
  | deleteOp gid =>
    cases h : delete_game gid gs with
    | none => simp [applyOp, h, opFreshIds]
    | some gs' =>
      have := delete_game_eq_filter gid gs gs' h
      subst this
      simpa [applyOp, h, opFreshIds, storedIds] using
        (List.filter_sublist gs).filterMap (fun g => g.id)

theorem nodup_storedIds_applyOps :
    ∀ (ops : List CatalogOp) (gs : List StoredGame),
      (storedIds gs ++ opsFreshIds ops).Nodup → (storedIds (applyOps gs ops)).Nodup := by
  intro ops
  induction ops with
  | nil => intro gs h; simpa [applyOps, opsFreshIds] using h
  | cons op ops ih =>
    intro gs h
    have h1 : List.Sublist (storedIds (applyOp gs op) ++ opsFreshIds ops)
        ((storedIds gs ++ opFreshIds op) ++ opsFreshIds ops) :=
      (storedIds_applyOp_sublist gs op).append (List.Sublist.refl _)
    have h2 : ((storedIds gs ++ opFreshIds op) ++ opsFreshIds ops).Nodup := by
      rw [List.append_assoc]
      simpa [opsFreshIds] using h
    have h3 := h2.sublist h1
    exact ih _ h3

theorem countP_selected_save_and_close (gid : String) (gs : List StoredGame) :
    (save_and_close gid gs).countP (fun g => g.is_last_selected = some true) =
      gs.countP (fun g => g.id = some gid) := by
  unfold save_and_close
  rw [List.countP_map]
  apply List.countP_congr
  intro g _
  simp [Function.comp]

theorem countP_id_eq_count (gid : String) :
    ∀ gs : List StoredGame,
      gs.countP (fun g => g.id = some gid) = (storedIds gs).count gid := by
  intro gs
  induction gs with
  | nil => simp [storedIds]
  | cons g gs ih =>
    cases hid : g.id with
    | none =>
      simp [storedIds, List.filterMap_cons, hid, List.countP_cons, ih]
    | some i =>
      by_cases hi : i = gid
      · subst hi
        simp [storedIds, List.filterMap_cons, hid, List.countP_cons, List.count_cons, ih]
      · simp [storedIds, List.filterMap_cons, hid, List.countP_cons, List.count_cons, ih, hi]

/-- C1: for every catalog state whose ids (together with the fresh uuids
drawn by imports) are pairwise distinct, and every sequence of
importGame/updateGame/deleteGame operations, after any selectGame call at
most one record of the saved catalog has its selection flag true:
`save_and_close` sets the flag exactly on the records whose id matches,
and distinct ids make that at most one record. -/
theorem save_and_close_exclusive (games : List StoredGame) (ops : List CatalogOp)
    (gid : String) (h : (storedIds games ++ opsFreshIds ops).Nodup) :
    (save_and_close gid (applyOps games ops)).countP
      (fun g => g.is_last_selected = some true) ≤ 1 := by
  rw [countP_selected_save_and_close, countP_id_eq_count]
  exact List.nodup_iff_count_le_one.mp (nodup_storedIds_applyOps ops games h) gid

/-- Witness for C1: a concrete run importing one game into the empty
catalog and then selecting it. -/
theorem save_and_close_exclusive_witness :
    (storedIds [] ++ opsFreshIds [CatalogOp.importOp "id1" "Foo" "C:/foo.exe" none]).Nodup ∧
    (save_and_close "id1"
        (applyOps [] [CatalogOp.importOp "id1" "Foo" "C:/foo.exe" none])).countP
      (fun g => g.is_last_selected = some true) ≤ 1 :=
  ⟨by decide,
    save_and_close_exclusive [] [CatalogOp.importOp "id1" "Foo" "C:/foo.exe" none]
      "id1" (by decide)⟩

/-- C9: selecting an id that matches no record does not fail with
NotFound: `save_and_close` has no error path for an unmatched id, it
writes back the catalog with every record deselected (the selection flag
of every record becomes False, all other fields unchanged), silently
deselecting a previously selected record. -/
theorem save_and_close_unknown_id (gid : String) (games : List StoredGame)
    (h : ∀ g ∈ games, g.id ≠ some gid) :
    save_and_close gid games =
      games.map (fun g => { g with is_last_selected := some false }) ∧
    ∀ g ∈ save_and_close gid games, g.is_last_selected = some false := by
  constructor
  · apply List.map_congr_left
    intro g hg
    simp [h g hg]
  · intro g hg
    obtain ⟨a, ha, rfl⟩ := List.mem_map.mp hg
    simp [h a ha]

/-- Witness for C9: deselecting with an unknown id on a one-record
catalog whose record was selected. -/
theorem save_and_close_unknown_id_witness :
    (∀ g ∈ ([⟨some "a", some "A", some "pa", none, some true⟩] : List StoredGame),
      g.id ≠ some "b") ∧
    ∀ g ∈ save_and_close "b"
        ([⟨some "a", some "A", some "pa", none, some true⟩] : List StoredGame),
      g.is_last_selected = some false :=
  ⟨by decide,
    (save_and_close_unknown_id "b" [⟨some "a", some "A", some "pa", none, some true⟩]
      (by decide)).2⟩

/-- C7: updateGame finds the record by id and overwrites exactly its
name, path and hash, keeping its id and selection flag and every other
record unchanged; when no record has the id the operation reports
NotFound and the file is not written (`none`). -/
theorem save_settings_spec (gid n p : String) (m : Option String)
    (games : List StoredGame) :
    ((∀ g ∈ games, g.id ≠ some gid) → save_settings gid n p m games = none) ∧
    (∀ (pre : List StoredGame) (g : StoredGame) (post : List StoredGame),
      games = pre ++ g :: post → g.id = some gid → (∀ g' ∈ pre, g'.id ≠ some gid) →
      save_settings gid n p m games =
        some (pre ++ { g with name := some n, path := some p, md5 := m } :: post)) := by
  constructor
  · intro h
    induction games with
    | nil => rfl
    | cons g gs ih =>
      rw [save_settings, if_neg (h g (List.mem_cons_self g gs))]
      rw [ih (fun g' hg' => h g' (List.mem_cons_of_mem g hg'))]
      rfl
  · intro pre g post hgames hg hpre
    subst hgames
    induction pre with
    | nil =>
      simp only [List.nil_append]
      rw [save_settings, if_pos hg]
    | cons a pre ih =>
      simp only [List.cons_append]
      rw [save_settings, if_neg (hpre a (List.mem_cons_self a pre)),
        ih (fun g' hg' => hpre g' (List.mem_cons_of_mem a hg'))]
      rfl

/-- Witness for C7: updating the second record of a two-record catalog by
its id. -/
theorem save_settings_spec_witness :
    ((⟨some "b", some "B", some "pb", none, some false⟩ : StoredGame).id = some "b") ∧
    save_settings "b" "B2" "pb2" (some "h2")
        [⟨some "a", some "A", some "pa", none, some false⟩,
         ⟨some "b", some "B", some "pb", none, some false⟩] =
      some [⟨some "a", some "A", some "pa", none, some false⟩,
            ⟨some "b", some "B2", some "pb2", some "h2", some false⟩] :=
  ⟨by decide,
    (save_settings_spec "b" "B2" "pb2" (some "h2")
        [⟨some "a", some "A", some "pa", none, some false⟩,
         ⟨some "b", some "B", some "pb", none, some false⟩]).2
      [⟨some "a", some "A", some "pa", none, some false⟩]
      ⟨some "b", some "B", some "pb", none, some false⟩ [] rfl rfl (by decide)⟩

/-- C8: importGame appends exactly one record, carrying the freshly
generated id and a False selection flag, leaving every existing record
unchanged; importing a name that already exists is allowed and yields two
records with that name and distinct ids. -/
theorem import_with_new_name_spec (f n p : String) (m : Option String)
    (games : List StoredGame) :
    import_with_new_name f n p m games = games ++ [newGameRecord f n p m] ∧
    (import_with_new_name f n p m games).length = games.length + 1 ∧
    (∀ g ∈ games, g ∈ import_with_new_name f n p m games) ∧
    ((∃ g ∈ games, g.name = some n ∧ g.id ≠ some f) →
      ∃ g₁, g₁ ∈ import_with_new_name f n p m games ∧
      ∃ g₂, g₂ ∈ import_with_new_name f n p m games ∧
        g₁.name = some n ∧ g₂.name = some n ∧ g₁.id ≠ g₂.id) := by
  refine ⟨rfl, by simp [import_with_new_name], fun g hg => List.mem_append_left _ hg, ?_⟩
  rintro ⟨g, hg, hname, hid⟩
  refine ⟨g, List.mem_append_left _ hg, newGameRecord f n p m,
    List.mem_append_right _ (List.mem_singleton.mpr rfl), hname, rfl, ?_⟩
  simpa [newGameRecord] using hid

/-- Witness for C8: importing a second game named Foo next to an existing
Foo produces two Foo records with different ids. -/
theorem import_with_new_name_spec_witness :
    (∃ g ∈ ([⟨some "x", some "Foo", some "P", none, some false⟩] : List StoredGame),
      g.name = some "Foo" ∧ g.id ≠ some "y") ∧
    ∃ g₁, g₁ ∈ import_with_new_name "y" "Foo" "Q" none
        [⟨some "x", some "Foo", some "P", none, some false⟩] ∧
    ∃ g₂, g₂ ∈ import_with_new_name "y" "Foo" "Q" none
        [⟨some "x", some "Foo", some "P", none, some false⟩] ∧
      g₁.name = some "Foo" ∧ g₂.name = some "Foo" ∧ g₁.id ≠ g₂.id :=
  ⟨by decide,
    (import_with_new_name_spec "y" "Foo" "Q" none
        [⟨some "x", some "Foo", some "P", none, some false⟩]).2.2.2 (by decide)⟩

/-
Lemmas about healing and loading.
-/

theorem heals_healGame (freshId : String) (g : StoredGame) :
    Heals g (healGame freshId g) := by
  refine ⟨?_, rfl, rfl, rfl, rfl⟩
  intro i hi
  simp [healGame, hi]

theorem healGames_forall2 (fresh : Nat → String) :
    ∀ (k : Nat) (stored : List StoredGame),
      List.Forall₂ Heals stored (healGames fresh k stored) := by
  intro k stored
  induction stored generalizing k with
  | nil => exact List.Forall₂.nil
  | cons g gs ih =>
    rw [healGames]
    cases g.id with
    | some i => exact List.Forall₂.cons (heals_healGame _ _) (ih k)
    | none => exact List.Forall₂.cons (heals_healGame _ _) (ih (k + 1))

theorem load_games_perm (fresh : Nat → String) (stored : List StoredGame) :
    (load_games fresh stored).Perm (healGames fresh 0 stored) :=
  List.filter_append_perm _ _

theorem mem_healGames_id (fresh : Nat → String) :
    ∀ (k : Nat) (stored : List StoredGame) (g : Game), g ∈ healGames fresh k stored →
      (∃ s ∈ stored, s.id = some g.id) ∨ ∃ j, g.id = fresh j := by
  intro k stored
  induction stored generalizing k with
  | nil => intro g hg; exact absurd hg (by rw [healGames]; exact List.not_mem_nil g)
  | cons s gs ih =>
    intro g hg
    rw [healGames] at hg
    cases hid : s.id with
    | some i =>
      rw [hid] at hg
      rcases List.mem_cons.mp hg with h | h
      · subst h
        exact Or.inl ⟨s, List.mem_cons_self s gs, by simp [healGame, hid]⟩
      · rcases ih k g h with ⟨s', hs', hid'⟩ | hj
        · exact Or.inl ⟨s', List.mem_cons_of_mem s hs', hid'⟩
        · exact Or.inr hj
    | none =>
      rw [hid] at hg
      rcases List.mem_cons.mp hg with h | h
      · subst h
        exact Or.inr ⟨k, by simp [healGame, hid]⟩
      · rcases ih (k + 1) g h with ⟨s', hs', hid'⟩ | hj
        · exact Or.inl ⟨s', List.mem_cons_of_mem s hs', hid'⟩
        · exact Or.inr hj

theorem healGames_exists_fresh (fresh : Nat → String) :
    ∀ (k : Nat) (stored : List StoredGame), (∃ s ∈ stored, s.id = none) →
      ∃ j, ∃ g ∈ healGames fresh k stored, g.id = fresh j := by
  intro k stored
  induction stored generalizing k with
  | nil => rintro ⟨s, hs, _⟩; exact absurd hs (List.not_mem_nil s)
  | cons s gs ih =>
    rintro ⟨s', hs', hnone⟩
    rw [healGames]
    cases hid : s.id with
    | none =>
      exact ⟨k, healGame (fresh k) s, List.mem_cons_self _ _, by simp [healGame, hid]⟩
    | some i =>
      rcases List.mem_cons.mp hs' with h | h
      · subst h
        rw [hid] at hnone
        exact Option.noConfusion hnone
      · obtain ⟨j, g, hg, hgid⟩ := ih k ⟨s', h, hnone⟩
        exact ⟨j, g, List.mem_cons_of_mem _ hg, hgid⟩

theorem length_filter_lt {α : Type} (p : α → Bool) :
    ∀ (l : List α) (a : α), a ∈ l → p a = false → (l.filter p).length < l.length := by
  intro l
  induction l with
  | nil => intro a ha _; exact absurd ha (List.not_mem_nil a)
  | cons b l ih =>
    intro a ha hpa
    rcases List.mem_cons.mp ha with rfl | ha'
    · rw [List.filter_cons, hpa]
      exact Nat.lt_succ_of_le (List.length_filter_le p l)
    · by_cases hpb : p b
      · simpa [List.filter_cons, hpb] using ih a ha' hpa
      · simp only [List.filter_cons, hpb, if_false, List.length_cons]
        exact Nat.lt_succ_of_lt (ih a ha' hpa)

/-- C4: listGames returns one healed record per stored record (a kept id
when present; defaults for missing name, path, hash and selection flag),
reordered as the stable partition that puts the selected record(s) first:
when exactly one record is selected the result is that record followed by
all other records in their stored insertion order. -/
theorem load_games_spec (fresh : Nat → String) (stored : List StoredGame) :
    List.Forall₂ Heals stored (healGames fresh 0 stored) ∧
    (load_games fresh stored).Perm (healGames fresh 0 stored) ∧
    (load_games fresh stored).length = stored.length ∧
    ∀ g : Game, (healGames fresh 0 stored).filter (fun x => x.is_last_selected) = [g] →
      load_games fresh stored =
        g :: (healGames fresh 0 stored).filter (fun x => !x.is_last_selected) := by
  refine ⟨healGames_forall2 fresh 0 stored, load_games_perm fresh stored, ?_, ?_⟩
  · rw [(load_games_perm fresh stored).length_eq]
    exact ((healGames_forall2 fresh 0 stored).length_eq).symm
  · intro g hg
    unfold load_games sortSelectedFirst
    rw [hg]
    rfl

/-- Witness for C4: loading a two-record catalog whose second record is
the selected one puts it first. -/
theorem load_games_spec_witness :
    (healGames (fun _ => "z") 0
        [⟨some "a", some "A", some "pa", none, some false⟩,
         ⟨some "b", some "B", some "pb", none, some true⟩]).filter
      (fun x => x.is_last_selected) = [⟨"b", "B", "pb", none, true⟩] ∧
    load_games (fun _ => "z")
        [⟨some "a", some "A", some "pa", none, some false⟩,
         ⟨some "b", some "B", some "pb", none, some true⟩] =
      (⟨"b", "B", "pb", none, true⟩ : Game) ::
        (healGames (fun _ => "z") 0
          [⟨some "a", some "A", some "pa", none, some false⟩,
           ⟨some "b", some "B", some "pb", none, some true⟩]).filter
          (fun x => !x.is_last_selected) :=
  ⟨by decide,
    (load_games_spec (fun _ => "z")
        [⟨some "a", some "A", some "pa", none, some false⟩,
         ⟨some "b", some "B", some "pb", none, some true⟩]).2.2.2
      ⟨"b", "B", "pb", none, true⟩ (by decide)⟩

/-- C5: loading right after saving a catalog of fully populated records
reproduces exactly the same sequence with all five fields present, and on
a legacy stored list every record is healed by filling each missing field
with its default. -/
theorem load_save_roundtrip (fresh : Nat → String) (records : List Game)
    (stored : List StoredGame) :
    healGames fresh 0 (saveGames records) = records ∧
    List.Forall₂ Heals stored (healGames fresh 0 stored) := by
  constructor
  · have h : ∀ (k : Nat) (rs : List Game), healGames fresh k (saveGames rs) = rs := by
      intro k rs
      induction rs generalizing k with
      | nil => rfl
      | cons r rs ih =>
        show healGames fresh k (saveGame r :: saveGames rs) = r :: rs
        rw [healGames]
        simp [saveGame, healGame, ih k]
    exact h 0 records
  · exact healGames_forall2 fresh 0 stored

/-- C3: deleteGame removes exactly the records carrying the given id and
the remaining records are saved; if no record has the id the operation
reports NotFound and the file is not written (`none`); after a successful
delete, listGames (with a uuid supply that never regenerates the deleted
id) returns no record with that id. -/
theorem delete_game_spec (gid : String) (games : List StoredGame)
    (fresh : Nat → String) (hfresh : ∀ k, fresh k ≠ gid) :
    ((∀ g ∈ games, g.id ≠ some gid) → delete_game gid games = none) ∧
    ((∃ g ∈ games, g.id = some gid) →
      ∃ games', delete_game gid games = some games' ∧
        games' = games.filter (fun g => g.id ≠ some gid) ∧
        ∀ g ∈ load_games fresh games', g.id ≠ gid) := by
  constructor
  · intro h
    have heq : games.filter (fun g => g.id ≠ some gid) = games :=
      List.filter_eq_self.mpr (fun g hg => by simpa using h g hg)
    simp only [delete_game]
    rw [if_pos (congrArg List.length heq)]
  · rintro ⟨g0, hg0, hid0⟩
    have hlt : (games.filter (fun g => g.id ≠ some gid)).length < games.length :=
      length_filter_lt _ games g0 hg0 (by simp [hid0])
    refine ⟨games.filter (fun g => g.id ≠ some gid), ?_, rfl, ?_⟩
    · simp only [delete_game]
      rw [if_neg (Nat.ne_of_lt hlt)]
    · intro g hg heq
      have hmem : g ∈ healGames fresh 0 (games.filter (fun g => g.id ≠ some gid)) :=
        (load_games_perm fresh _).mem_iff.mp hg
      rcases mem_healGames_id fresh 0 _ g hmem with ⟨s, hs, hsid⟩ | ⟨j, hj⟩
      · have hkeep := (List.mem_filter.mp hs).2
        rw [heq] at hsid
        simp [hsid] at hkeep
      · exact hfresh j (hj.symm.trans heq)

/-- Witness for C3: deleting the only record of a one-record catalog by
its id leaves a catalog that lists no record with that id. -/
theorem delete_game_spec_witness :
    (∃ g ∈ ([⟨some "a", some "A", some "pa", none, some false⟩] : List StoredGame),
      g.id = some "a") ∧
    ∃ games', delete_game "a"
        ([⟨some "a", some "A", some "pa", none, some false⟩] : List StoredGame) =
        some games' ∧
      games' = ([⟨some "a", some "A", some "pa", none, some false⟩] :
          List StoredGame).filter (fun g => g.id ≠ some "a") ∧
      ∀ g ∈ load_games (fun _ => "z") games', g.id ≠ "a" :=
  ⟨by decide,
    (delete_game_spec "a" [⟨some "a", some "A", some "pa", none, some false⟩]
        (fun _ => "z") (by intro k; show ("z" : String) ≠ "a"; decide)).2 (by decide)⟩

/-- C10: listGames does not persist the ids it invents while healing: the
id assigned to a stored record that lacks one comes purely from the uuid
supply of that call, so two loads of the same unchanged stored list with
disjoint uuid supplies (uuids are never repeated and never collide with
stored ids) return different results. -/
theorem load_games_fresh_ephemeral (stored : List StoredGame) (f₁ f₂ : Nat → String)
    (hmem : ∃ g ∈ stored, g.id = none)
    (hdisj : ∀ j k, f₁ j ≠ f₂ k)
    (hstored : ∀ k, ∀ g ∈ stored, g.id ≠ some (f₁ k)) :
    load_games f₁ stored ≠ load_games f₂ stored := by
  obtain ⟨j, g, hg, hgid⟩ := healGames_exists_fresh f₁ 0 stored hmem
  intro heq
  have hmem1 : g ∈ load_games f₁ stored := (load_games_perm f₁ stored).mem_iff.mpr hg
  rw [heq] at hmem1
  have hmem2 : g ∈ healGames f₂ 0 stored := (load_games_perm f₂ stored).mem_iff.mp hmem1
  rcases mem_healGames_id f₂ 0 stored g hmem2 with ⟨s, hs, hsid⟩ | ⟨k, hk⟩
  · exact hstored j s hs (by rw [hsid, hgid])
  · exact hdisj j k (hgid.symm.trans hk)

/-- Witness for C10: an id-less stored record gets the id of the current
uuid supply, so loads under the supplies a and b differ. -/
theorem load_games_fresh_ephemeral_witness :
    (∃ g ∈ ([⟨none, some "N", some "pn", none, some false⟩] : List StoredGame),
      g.id = none) ∧
    load_games (fun _ => "a")
        ([⟨none, some "N", some "pn", none, some false⟩] : List StoredGame) ≠
      load_games (fun _ => "b")
        ([⟨none, some "N", some "pn", none, some false⟩] : List StoredGame) :=
  ⟨by decide,
    load_games_fresh_ephemeral [⟨none, some "N", some "pn", none, some false⟩]
      (fun _ => "a") (fun _ => "b") (by decide)
      (by intro j k; show ("a" : String) ≠ "b"; decide)
      (fun _ g hg => by rw [List.mem_singleton] at hg; subst hg; simp)⟩

/-
Lemmas about the launcher.
-/

theorem dispatch_game_code (spawn : GamePath → SpawnResult) (procs : List SpawnHandle)
    (p : GamePath) :
    (dispatch_game spawn procs p).code = 1 ∨ (dispatch_game spawn procs p).code = -1 := by
  rw [dispatch_game]
  split_ifs
  · exact Or.inl rfl
  · cases spawn p
    · exact Or.inl rfl
    · exact Or.inr rfl
    · exact Or.inr rfl
    · exact Or.inr rfl

/-- C2: when the file exists and a non-empty expected hash is stored but
the recomputed content hash differs, `start_game` returns the integrity
failure code -3, opens nothing via the default handler and leaves the
process registry unchanged (no child spawned); and when no truthy hash is
stored (absent or empty) the integrity code -3 is never produced. -/
theorem start_game_integrity (md5Hex : List Nat → String) (fs : GamePath → FileStat)
    (spawn : GamePath → SpawnResult) (procs : List SpawnHandle) (p : GamePath) :
    (∀ h : String, fs p ≠ FileStat.absent → h ≠ "" →
      get_file_md5 md5Hex fs p ≠ some h →
      start_game md5Hex fs spawn procs p (some h) =
        { code := -3, opened := none, registry := procs }) ∧
    (∀ m : Option String, md5Truthy m = false →
      (start_game md5Hex fs spawn procs p m).code ≠ -3) := by
  constructor
  · intro h hex hne hmis
    have ht : md5Truthy (some h) = true := by
      simp only [md5Truthy, Bool.not_eq_true']
      exact Bool.eq_false_iff.mpr (fun hc => hne ((String.isEmpty_iff h).mp hc))
    rw [start_game, if_neg hex, if_pos ht, if_pos hmis]
  · intro m hm
    by_cases h1 : fs p = FileStat.absent
    · rw [start_game, if_pos h1]
      show (-2 : Int) ≠ -3
      decide
    · rw [start_game, if_neg h1, if_neg (by simp [hm])]
      rcases dispatch_game_code spawn procs p with h | h <;> rw [h] <;> decide

/-- Witness for C2: a readable file whose digest d differs from the
stored hash x is reported as an integrity mismatch, and with no stored
hash the mismatch code cannot occur. -/
theorem start_game_integrity_witness :
    (get_file_md5 (fun _ => "d") (fun _ => FileStat.file []) ⟨"C:/g", "game", ".exe"⟩ ≠
      some "x") ∧
    start_game (fun _ => "d") (fun _ => FileStat.file []) (fun _ => SpawnResult.ok) []
        ⟨"C:/g", "game", ".exe"⟩ (some "x") =
      { code := -3, opened := none, registry := [] } ∧
    (start_game (fun _ => "d") (fun _ => FileStat.file []) (fun _ => SpawnResult.ok) []
        ⟨"C:/g", "game", ".exe"⟩ none).code ≠ -3 :=
  ⟨by decide,
    (start_game_integrity (fun _ => "d") (fun _ => FileStat.file [])
        (fun _ => SpawnResult.ok) [] ⟨"C:/g", "game", ".exe"⟩).1
      "x" (by decide) (by decide) (by decide),
    (start_game_integrity (fun _ => "d") (fun _ => FileStat.file [])
        (fun _ => SpawnResult.ok) [] ⟨"C:/g", "game", ".exe"⟩).2 none rfl⟩

/-- C6: for an existing file that passes the integrity check, launch
dispatches by kind: a path with extension .html (case-insensitively) is
opened via the system default handler, nothing is added to the process
registry and the result is success; any other path, when the OS spawn
succeeds, is spawned with its working directory set to its containing
folder, the handle is appended to the process registry and the result is
success. -/
theorem start_game_dispatch (md5Hex : List Nat → String) (fs : GamePath → FileStat)
    (spawn : GamePath → SpawnResult) (procs : List SpawnHandle) (p : GamePath)
    (m : Option String) (hex : fs p ≠ FileStat.absent)
    (hint : md5Truthy m = true → get_file_md5 md5Hex fs p = m) :
    (strLower p.ext = ".html" →
      start_game md5Hex fs spawn procs p m =
        { code := 1, opened := some p, registry := procs }) ∧
    (strLower p.ext ≠ ".html" → spawn p = SpawnResult.ok →
      start_game md5Hex fs spawn procs p m =
        { code := 1, opened := none,
          registry := procs ++ [{ cmd := p, cwd := p.dir }] }) := by
  have hdis : start_game md5Hex fs spawn procs p m = dispatch_game spawn procs p := by
    rw [start_game, if_neg hex]
    by_cases ht : md5Truthy m = true
    · rw [if_pos ht, if_neg (fun hc => hc (hint ht))]
    · rw [if_neg ht]
  constructor
  · intro hhtml
    rw [hdis, dispatch_game, if_pos hhtml]
  · intro hhtml hok
    rw [hdis, dispatch_game, if_neg hhtml, hok]

/-- Witness for C6: an exe whose stored hash matches is spawned from its
own folder and tracked; an html page with matching hash is opened and not
tracked. -/
theorem start_game_dispatch_witness :
    (strLower (⟨"C:/g", "game", ".exe"⟩ : GamePath).ext ≠ ".html" ∧
      start_game (fun _ => "d") (fun _ => FileStat.file []) (fun _ => SpawnResult.ok) []
          ⟨"C:/g", "game", ".exe"⟩ (some "d") =
        { code := 1, opened := none,
          registry := [{ cmd := ⟨"C:/g", "game", ".exe"⟩, cwd := "C:/g" }] }) ∧
    (strLower (⟨"C:/h", "page", ".html"⟩ : GamePath).ext = ".html" ∧
      start_game (fun _ => "d") (fun _ => FileStat.file []) (fun _ => SpawnResult.ok) []
          ⟨"C:/h", "page", ".html"⟩ (some "d") =
        { code := 1, opened := some ⟨"C:/h", "page", ".html"⟩, registry := [] }) :=
  ⟨⟨by decide,
      (start_game_dispatch (fun _ => "d") (fun _ => FileStat.file [])
          (fun _ => SpawnResult.ok) [] ⟨"C:/g", "game", ".exe"⟩ (some "d")
          (by decide) (fun _ => rfl)).2 (by decide) rfl⟩,
    ⟨by decide,
      (start_game_dispatch (fun _ => "d") (fun _ => FileStat.file [])
          (fun _ => SpawnResult.ok) [] ⟨"C:/h", "page", ".html"⟩ (some "d")
          (by decide) (fun _ => rfl)).1 (by decide)⟩⟩

end AnyLauncher
